import Mathlib

/-!
Verification development for the process supervisor implemented in
`src/index.js` (a minimal pm2-style process manager).  The JavaScript
source is shallowly embedded: every definition below is translated from a
concrete place in `src/index.js`, with JavaScript truthiness, the
`String.split(/[\n\r]+/)` regex, and the callback-based control flow made
explicit.  External Node primitives (`fs.readFile`, `fs.appendFile`,
`JSON.parse`, `child_process.spawn`/`fork`, the child's event stream) are
modelled by explicit result values handed to the embedded code; the
repository's own logic (guards, the `try/catch` extent, the registry
mutations, the line splitting, the exit handlers) is reproduced faithfully.
-/

namespace PM2

/-- JavaScript truthiness of an optional string value: `none` stands for
`undefined`/absent, and the empty string is falsy. -/
def truthyS : Option String → Bool
  | none => false
  | some s => s ≠ ""

/-- A JavaScript exception escaping the embedded code.  `syntaxError` is what
`JSON.parse` throws on malformed input; `referenceError x` is the exception
thrown when an unbound identifier `x` is evaluated. -/
inductive JsError where
  | syntaxError
  | referenceError (ident : String)
deriving DecidableEq

/-- Abstract content of the `package.json` manifest as seen through
`JSON.parse`: either malformed text (`JSON.parse` throws) or a parsed object
whose `main` field may be absent. -/
inductive JsonDoc where
  | invalid
  | valid (main : Option String)
deriving DecidableEq

/-- Result of the `fs.readFile` call on `<cwd>/package.json`: the read either
reports an error to its callback or delivers the file's data. -/
inductive ReadResult where
  | fail
  | ok (doc : JsonDoc)
deriving DecidableEq

/-- Embedding of `get_script_1` (src/index.js lines 70-84).  If `pi.script` is
truthy it is returned directly.  Otherwise the manifest is read: a read error
is swallowed (`if(err) cb()`), while `JSON.parse` runs inside the
asynchronous `readFile` callback, OUTSIDE the `try/catch` (which only covers
the synchronous `path.join`/`fs.readFile` invocation), so a parse failure is
a thrown exception, not a swallowed one.  The `.error` result records that
thrown exception. -/
def get_script_1 (script : Option String) (fs : ReadResult) :
    Except JsError (Option String) :=
  if truthyS script then Except.ok script
  else
    match fs with
    | ReadResult.fail => Except.ok none
    | ReadResult.ok JsonDoc.invalid => Except.error JsError.syntaxError
    | ReadResult.ok (JsonDoc.valid m) => Except.ok m

/-- Index of the last occurrence of a dot in a character list. -/
def lastDotIdx : List Char → Option Nat
  | [] => none
  | c :: cs =>
    match lastDotIdx cs with
    | some i => some (i + 1)
    | none => if c = '.' then some 0 else none

/-- The characters after the last `/` of a posix path: the basename the
extension is extracted from. -/
def afterLastSlash (cs : List Char) : List Char :=
  cs.foldl (fun acc c => if c = '/' then [] else acc ++ [c]) []

/-- Embedding of Node's posix `path.extname`: the suffix of the basename from
its last dot, empty when there is no dot, when the only dot is the leading
character, or for the special basename `..`. -/
def extname (p : String) : String :=
  let b := afterLastSlash p.toList
  if b = ['.', '.'] then ""
  else
    match lastDotIdx b with
    | none => ""
    | some i => if i = 0 then "" else String.mk (b.drop i)

/-- The two launch strategies of the handler table in `getScriptHandler`
(src/index.js lines 120-127). -/
inductive Handler where
  | launchJS
  | launchPython
deriving DecidableEq

/-- Embedding of `getScriptHandler` (src/index.js lines 120-127): extract the
extension; an empty extension is falsy so the function returns `undefined`
(`none`); otherwise look the extension up in the literal table mapping
`.js` and `.py` to their launch strategies. -/
def getScriptHandler (script : String) : Option Handler :=
  let ext := extname script
  if ext = "" then none
  else if ext = ".js" then some Handler.launchJS
  else if ext = ".py" then some Handler.launchPython
  else none

/-- The caller-supplied parameter object of `start`.  `none` fields stand for
absent (`undefined`) properties; `env` is a property list standing for the
environment object. -/
structure StartParams where
  name : Option String := none
  script : Option String := none
  cwd : Option String := none
  log : Option String := none
  restartAt : Option Nat := none
  args : Option (List String) := none
  env : Option (List (String × String)) := none
deriving DecidableEq

/-- The rebuild of `pi` inside `start` (src/index.js lines 34-41): only
`name`, `script`, `cwd`, `log`, `restartAt` (and the callback) are copied to
the fresh object, so on the new `pi` the properties `args` and `env` are
absent, i.e. `undefined`. -/
def sanitize (p : StartParams) : StartParams :=
  { name := p.name, script := p.script, cwd := p.cwd, log := p.log,
    restartAt := p.restartAt, args := none, env := none }

/-- The data fields of a Process Entry as pushed onto `REG`.  The
function-valued fields (`cb`, `flush`) and the live `child` handle carry no
data relevant to the registry claims and are modelled separately
(`CbArg` traces, `CapState`, `TermEvent`). -/
structure PiEntry where
  name : Option String
  script : Option String
  cwd : Option String
  log : Option String
  restartAt : Option Nat
  resolvedScript : String
deriving DecidableEq

/-- Options of the `child_process.spawn` call in `launchPythonProcess`
(src/index.js lines 135-141): `cwd`/`env` are set only when the corresponding
`pi` property is truthy (an absent property never sets the option). -/
structure PySpawnOpts where
  windowsHide : Bool
  detached : Bool
  cwd : Option String
  env : Option (List (String × String))
deriving DecidableEq

/-- Options of the `child_process.fork` call in `launchJSProcess`
(src/index.js lines 164-170). -/
structure ForkOpts where
  silent : Bool
  detached : Bool
  cwd : Option String
  env : Option (List (String × String))
deriving DecidableEq

/-- The process-creation request issued by a launch strategy. -/
inductive SpawnCall where
  | spawn (exe : String) (args : List String) (opts : PySpawnOpts)
  | fork (modulePath : String) (args : List String) (opts : ForkOpts)
deriving DecidableEq

/-- Embedding of `launchPythonProcess` (src/index.js lines 134-149), up to the
`proc.spawn` call: `pi.args` absent gives `[pi._script]`, otherwise the
script is prepended to `pi.args` (an empty array is truthy and keeps the
`concat` branch); `cwd` is copied only when truthy, `env` only when present
(any object, even empty, is truthy). -/
def launchPythonProcess (pi : StartParams) (script : String) : SpawnCall :=
  let args := match pi.args with
    | none => [script]
    | some more => script :: more
  SpawnCall.spawn "python" args
    { windowsHide := false, detached := false,
      cwd := if truthyS pi.cwd then pi.cwd else none, env := pi.env }

/-- Embedding of `launchJSProcess` (src/index.js lines 163-177), up to the
`proc.fork` call: the script is the forked module path (not prepended to the
argument vector), and `pi.args` absent gives `[]`. -/
def launchJSProcess (pi : StartParams) (script : String) : SpawnCall :=
  let args := match pi.args with
    | none => []
    | some more => more
  SpawnCall.fork script args
    { silent := true, detached := false,
      cwd := if truthyS pi.cwd then pi.cwd else none, env := pi.env }

/-- Dispatch of the handler returned by `getScriptHandler`. -/
def runHandler : Handler → StartParams → String → SpawnCall
  | Handler.launchJS, pi, script => launchJSProcess pi script
  | Handler.launchPython, pi, script => launchPythonProcess pi script

/-- One invocation of the user callback `cb`: with an error message string, or
with no argument (success). -/
inductive CbArg where
  | err (msg : String)
  | success
deriving DecidableEq

/-- Everything one call to `start` does that is observable in the embedding:
the registry after the call, the process-creation requests issued, the
`cb` invocations made, and the exception thrown past `start` (the
`JSON.parse` of the manifest, see `get_script_1`), if any. -/
structure StartResult where
  reg : List PiEntry
  spawns : List SpawnCall
  cbs : List CbArg
  thrown : Option JsError
deriving DecidableEq

/-- The Process Entry pushed onto `REG` in `start`'s success path: the
sanitized `pi` with `pi._script` set to the resolved script. -/
def mkEntry (pi : StartParams) (script : String) : PiEntry :=
  { name := pi.name, script := pi.script, cwd := pi.cwd, log := pi.log,
    restartAt := pi.restartAt, resolvedScript := script }

/-- The tail of `start`'s resolution continuation once `pi._script` is known
truthy (src/index.js lines 49-57): handler lookup, and on a hit the
`REG.push(pi)` followed by `handler(pi)` and `cb()`; on a miss the
"Don't know how to start" callback with the registry untouched. -/
def startWithScript (REG : List PiEntry) (pi : StartParams) (script : String) :
    StartResult :=
  match getScriptHandler script with
  | none => ⟨REG, [], [CbArg.err ("Don't know how to start " ++ script)], none⟩
  | some h =>
      ⟨REG ++ [mkEntry pi script], [runHandler h pi script], [CbArg.success], none⟩

/-- The continuation `start` passes to `get_script_1`
(src/index.js lines 43-58): store the resolved script on `pi`, fail with
"No script given to run" when it is falsy, otherwise look up and run the
handler.  A `JsError` from `get_script_1` is a thrown exception: the
continuation never runs and no callback fires. -/
def startResolve (REG : List PiEntry) (pi : StartParams) (fs : ReadResult) :
    StartResult :=
  match get_script_1 pi.script fs with
  | Except.error e => ⟨REG, [], [], some e⟩
  | Except.ok scr =>
      if !truthyS scr then ⟨REG, [], [CbArg.err "No script given to run"], none⟩
      else startWithScript REG pi (scr.getD "")

/-- Embedding of `start` (src/index.js lines 28-58) over a registry state:
the two synchronous guards, the rebuild of `pi`, then resolution and launch
through `startResolve`/`startWithScript`. -/
def start (REG : List PiEntry) (p : Option StartParams) (fs : ReadResult) :
    StartResult :=
  match p with
  | none =>
      ⟨REG, [], [CbArg.err "Cannot start process without any information"], none⟩
  | some pi0 =>
      if !truthyS pi0.script && !truthyS pi0.cwd then
        ⟨REG, [], [CbArg.err "Cannot start process without 'script' or 'cwd'"], none⟩
      else startResolve REG (sanitize pi0) fs

/-- Embedding of `stopByName` (src/index.js lines 93-97): `REG.forEach`
invokes `stop(pi)` on each entry whose `name` strictly equals the argument.
`stop` itself (line 110) has an empty body, so the observable behaviour is
the ordered trace of entries to which the stop action is applied, which this
function returns. -/
def stopByName (REG : List PiEntry) (n : String) : List PiEntry :=
  REG.foldl (fun trace pi => if pi.name == some n then trace ++ [pi] else trace) []

/-- Embedding of `restartByName` (src/index.js lines 87-91), as the ordered
trace of entries to which the (empty-bodied) restart action is applied. -/
def restartByName (REG : List PiEntry) (n : String) : List PiEntry :=
  REG.foldl (fun trace pi => if pi.name == some n then trace ++ [pi] else trace) []

/-- One call through the module's public surface, as it acts on the registry.
`opStart` carries the caller's parameter object and the modelled manifest
read; the other operations carry their argument. -/
inductive Op where
  | opStart (p : Option StartParams) (fs : ReadResult)
  | opStop (n : String)
  | opRestart (n : String)
  | opStopall
  | opOnstopping

/-- The registry after one public operation.  `stop` (line 110) and `restart`
(line 107) have empty bodies and `stopall`/`stopByName`/`restartByName` only
iterate over `REG`, so only `start` ever changes the registry, by `REG.push`
on its success path. -/
def applyOp (REG : List PiEntry) : Op → List PiEntry
  | Op.opStart p fs => (start REG p fs).reg
  | Op.opStop _ => REG
  | Op.opRestart _ => REG
  | Op.opStopall => REG
  | Op.opOnstopping => REG

/-- The registry after a sequence of public operations. -/
def applyOps (REG : List PiEntry) (ops : List Op) : List PiEntry :=
  ops.foldl applyOp REG

/-- Whether a character is matched by the character class of the regex
`[\n\r]+` in `show_lines_1`. -/
def isNlCr (c : Char) : Bool := c = '\n' || c = '\r'

/-- Embedding of JavaScript `f.split(/[\n\r]+/)`: split `s` at every maximal
run of newline / carriage-return characters.  The result always has at least
one element, and empty segments appear for leading or trailing runs, exactly
as for the JavaScript regex split. -/
def splitRuns (s : String) : List String :=
  let step := fun (st : List String × String × Bool) (c : Char) =>
    match st with
    | (done, cur, inRun) =>
      if isNlCr c then
        if inRun then (done, cur, true)
        else (done ++ [cur], "", true)
      else (done, cur.push c, false)
  let r := s.toList.foldl step ([], "", false)
  r.1 ++ [r.2.1]

/-- Embedding of `show_lines_1` (src/index.js lines 205-213): the empty
accumulator is returned unchanged (`if(!f) return f`); otherwise the
accumulator is split on runs of newline/carriage-return, every segment but
the last is emitted in order, and the last segment is the new accumulator
value.  Returns (emitted lines, new accumulator). -/
def show_lines_1 (f : String) : List String × String :=
  if f = "" then ([], f)
  else
    let lines := splitRuns f
    (lines.dropLast, lines.getLastD "")

/-- One `data` event on a stream (src/index.js lines 187-194): the chunk is
appended to the pending accumulator (`op += data`) and the result is fed
through `show_lines_1`, whose return value becomes the new accumulator. -/
def onData (pending data : String) : List String × String :=
  show_lines_1 (pending ++ data)

/-- The two accumulators of `captureOutput` (src/index.js lines 184-185):
`op` for stdout, `er` for stderr. -/
structure CapState where
  op : String
  er : String
deriving DecidableEq

/-- Whether a character is removed by JavaScript `String.prototype.trim`
(restricted to the ASCII whitespace that can occur here). -/
def jsWs (c : Char) : Bool :=
  c = ' ' || c = '\t' || c = '\n' || c = '\r' || c = '\x0b' || c = '\x0c'

/-- Embedding of JavaScript `s.trim()`: surrounding whitespace removed. -/
def jsTrim (s : String) : String :=
  String.mk (((s.toList.dropWhile jsWs).reverse.dropWhile jsWs).reverse)

/-- Embedding of the nested `flush` (src/index.js lines 198-203): each
accumulator that is truthy and has a truthy trim is emitted trimmed (stdout
first, tagged `false`; stderr second, tagged `true`), then both accumulators
are reset to the empty string.  Returns (emitted (line, iserr) pairs, new
state). -/
def flush (st : CapState) : List (String × Bool) × CapState :=
  let o := if st.op ≠ "" && jsTrim st.op ≠ "" then [(jsTrim st.op, false)] else []
  let e := if st.er ≠ "" && jsTrim st.er ≠ "" then [(jsTrim st.er, true)] else []
  (o ++ e, ⟨"", ""⟩)

/-- Destination of one emitted line, as routed by `out`
(src/index.js lines 219-231). -/
inductive OutDest where
  | appendLog (file : String) (data : String)
  | stdoutLine (line : String)
  | stderrLine (line : String)
deriving DecidableEq

/-- Embedding of `out`'s destination routing: with a truthy `pi.log` the line
plus a trailing newline goes to `fs.appendFile` on that file; otherwise the
line goes to the supervisor's own stderr (`iserr`) or stdout. -/
def out (log : Option String) (line : String) (iserr : Bool) : OutDest :=
  if truthyS log then OutDest.appendLog (log.getD "") (line ++ "\n")
  else if iserr then OutDest.stderrLine line
  else OutDest.stdoutLine line

/-- The identifiers bound in the scopes enclosing the `fs.appendFile`
completion callback body (src/index.js lines 221-226): the callback's own
parameter, `out`'s parameters, the locals and parameters of `captureOutput`,
the module-level declarations of src/index.js, and the ambient Node globals
referenced by the module. -/
def outCallbackScope : List String :=
  ["err", "pi", "line", "iserr",
   "op", "er", "data", "flush", "show_lines_1", "out",
   "fs", "path", "proc", "REG", "ONSTOPPING",
   "start", "restartByName", "stopByName", "stopall", "onstopping",
   "restart", "stop", "getScriptHandler", "launchPythonProcess",
   "launchJSProcess", "captureOutput", "handleExit",
   "module", "require", "console", "process"]

/-- Embedding of the `fs.appendFile` completion callback
(src/index.js lines 221-226).  With no error the body does nothing.  With an
error the body is `console.error(m); console.error(err)` — but `m` is bound
in none of the enclosing scopes (see `outCallbackScope`), so evaluating it
throws a ReferenceError before anything is written to the error channel. -/
def appendFileCallback (err : Option String) : Except JsError (List OutDest) :=
  match err with
  | none => Except.ok []
  | some _ => Except.error (JsError.referenceError "m")

/-- One terminal event delivered by the `ChildProcess` to the handlers that
`handleExit` installed (src/index.js lines 245-262): an `error` event with
an error value, or an `exit`/`close` event carrying an exit code (possibly
`null`) and a signal (possibly `null`). -/
inductive TermEvent where
  | errorEv (err : String)
  | exitEv (code : Option Int) (signal : Option String)
  | closeEv (code : Option Int) (signal : Option String)
deriving DecidableEq

/-- JavaScript truthiness of the `code` argument of `on_done_1`: `null` and
`0` are falsy. -/
def truthyCode : Option Int → Bool
  | none => false
  | some c => c ≠ 0

/-- The callback invocation produced by one terminal event: the `error`
handler calls `cb(err)`; `on_done_1` (behind both `exit` and `close`) calls
`cb` with "Exited with error" when `code || signal` is truthy and with no
argument otherwise.  Every handler also calls `flush` first; none of them
consults or records any state, so each delivered event produces exactly one
callback invocation. -/
def handleEvent : TermEvent → CbArg
  | TermEvent.errorEv e => CbArg.err e
  | TermEvent.exitEv c s =>
      if truthyCode c || truthyS s then CbArg.err "Exited with error" else CbArg.success
  | TermEvent.closeEv c s =>
      if truthyCode c || truthyS s then CbArg.err "Exited with error" else CbArg.success

/-- Embedding of the exit handling of `handleExit` over a whole delivered
event sequence: the ordered list of completion-callback invocations. -/
def handleExitRun (evs : List TermEvent) : List CbArg :=
  evs.map handleEvent

/-! Helper lemmas shared by the claim theorems. -/

/-- Every call to `start` either leaves the registry unchanged (with no spawn
and a callback trace that is not the lone success call), or appends exactly
one entry, spawns exactly one process and calls back success. -/
lemma start_shape (REG : List PiEntry) (q : Option StartParams) (fs : ReadResult) :
    ((start REG q fs).reg = REG ∧ (start REG q fs).cbs ≠ [CbArg.success]
        ∧ (start REG q fs).spawns = [])
  ∨ (∃ e c, (start REG q fs).reg = REG ++ [e]
        ∧ (start REG q fs).cbs = [CbArg.success] ∧ (start REG q fs).spawns = [c]) := by
  cases q with
  | none => exact Or.inl ⟨rfl, by simp [start], rfl⟩
  | some p =>
    unfold start startResolve startWithScript
    repeat' split
    all_goals
      first
        | exact Or.inl ⟨rfl, by simp, rfl⟩
        | exact Or.inr ⟨_, _, rfl, rfl, rfl⟩

/-- No public operation shrinks the registry. -/
lemma applyOp_length (REG : List PiEntry) (op : Op) :
    REG.length ≤ (applyOp REG op).length := by
  cases op with
  | opStart p fs =>
    rcases start_shape REG p fs with ⟨h1, -, -⟩ | ⟨a, c, h1, -, -⟩ <;>
      simp [applyOp, h1]
  | opStop n => exact le_refl _
  | opRestart n => exact le_refl _
  | opStopall => exact le_refl _
  | opOnstopping => exact le_refl _

/-- No public operation removes an entry from the registry. -/
lemma applyOp_mem {e : PiEntry} {REG : List PiEntry} (h : e ∈ REG) (op : Op) :
    e ∈ applyOp REG op := by
  cases op with
  | opStart p fs =>
    rcases start_shape REG p fs with ⟨h1, -, -⟩ | ⟨a, c, h1, -, -⟩ <;>
      simp [applyOp, h1, h]
  | opStop n => exact h
  | opRestart n => exact h
  | opStopall => exact h
  | opOnstopping => exact h

/-- Registry length is monotone and membership persists across any sequence
of public operations. -/
lemma applyOps_mono (ops : List Op) : ∀ REG : List PiEntry,
    REG.length ≤ (applyOps REG ops).length ∧ ∀ e ∈ REG, e ∈ applyOps REG ops := by
  induction ops with
  | nil => exact fun REG => ⟨le_refl _, fun e he => he⟩
  | cons op rest ih =>
    intro REG
    have hstep : applyOps REG (op :: rest) = applyOps (applyOp REG op) rest := rfl
    refine ⟨?_, ?_⟩
    · rw [hstep]
      exact le_trans (applyOp_length REG op) (ih (applyOp REG op)).1
    · intro e he
      rw [hstep]
      exact (ih (applyOp REG op)).2 e (applyOp_mem he op)

/-- The `forEach`-with-condition trace is the filter of the list. -/
lemma foldl_collect_filter (p : PiEntry → Bool) (l : List PiEntry) :
    ∀ acc : List PiEntry,
      l.foldl (fun t pi => if p pi then t ++ [pi] else t) acc = acc ++ l.filter p := by
  induction l with
  | nil => intro acc; simp
  | cons x xs ih =>
    intro acc
    by_cases h : p x = true <;>
      simp [List.foldl_cons, h, ih, List.filter_cons]

/-- The characterization halves of `show_lines_1`: it always returns the
split's segments but the last, and the last segment, including for the empty
accumulator (where the early return coincides with the split, since the
split of the empty string is the single empty segment). -/
lemma show_lines_1_spec (f : String) :
    show_lines_1 f = ((splitRuns f).dropLast, (splitRuns f).getLastD "") := by
  by_cases h : f = ""
  · subst h; decide
  · simp [show_lines_1, h]

/-! The claims. -/

/-- C1, counterexample: the handlers installed by `handleExit` keep no state,
so when the underlying process fires both `exit` and `close` (the code's own
comment notes both may fire), each event invokes the completion callback:
two events with exit code 0 produce two success invocations, not one. -/
theorem c1_counterexample :
    handleExitRun [TermEvent.exitEv (some 0) none, TermEvent.closeEv (some 0) none]
        = [CbArg.success, CbArg.success]
  ∧ (handleExitRun
        [TermEvent.exitEv (some 0) none, TermEvent.closeEv (some 0) none]).length ≠ 1 := by
  decide

/-- C1, amended: the exit handling of `handleExit` invokes the completion
callback once per delivered terminal event — `n` events produce exactly `n`
invocations — so the callback fires exactly once precisely when exactly one
of {error, exit, close} is delivered; there is no pending/resolved guard
ignoring later events. -/
theorem c1_once_per_event (evs : List TermEvent) :
    (handleExitRun evs).length = evs.length
  ∧ ∀ ev : TermEvent, handleExitRun [ev] = [handleEvent ev] := by
  exact ⟨by simp [handleExitRun], fun ev => rfl⟩

/-- C2, counterexample: with no explicit script and a working directory whose
`package.json` is unparsable, the `JSON.parse` inside the asynchronous
`readFile` callback throws outside the `try/catch`, so `start` ends with a
thrown exception and the callback never fires with the "No script given to
run" configuration error (it never fires at all). -/
theorem c2_counterexample :
    (start [] (some { name := some "fail1", cwd := some "./tester" })
        (ReadResult.ok JsonDoc.invalid)).thrown = some JsError.syntaxError
  ∧ (start [] (some { name := some "fail1", cwd := some "./tester" })
        (ReadResult.ok JsonDoc.invalid)).cbs = [] := by
  decide

/-- C2, amended: for a call to `start` without an explicit script but with a
working directory, a failure to READ the manifest is swallowed and resolution
fails with the ordinary "No script given to run" configuration error through
the callback, with the registry unchanged and nothing spawned; a failure to
PARSE the manifest, however, propagates as a thrown error and no callback
fires. -/
theorem c2_read_fail_swallowed_parse_throws (REG : List PiEntry) (p : StartParams)
    (hs : truthyS p.script = false) (hc : truthyS p.cwd = true) :
    start REG (some p) ReadResult.fail
        = ⟨REG, [], [CbArg.err "No script given to run"], none⟩
  ∧ start REG (some p) (ReadResult.ok JsonDoc.invalid)
        = ⟨REG, [], [], some JsError.syntaxError⟩ := by
  have hcond : (!truthyS p.script && !truthyS p.cwd) = false := by
    simp [hs, hc]
  have hnone : truthyS none = false := rfl
  constructor <;>
    simp [start, hcond, startResolve, sanitize, get_script_1, hs, hc, hnone]

/-- C2, witness for the amended theorem at the concrete call of the test
harness (`{name: 'fail1', cwd: './tester'}`). -/
theorem c2_read_fail_swallowed_parse_throws_witness :
    start [] (some { name := some "fail1", cwd := some "./tester" }) ReadResult.fail
        = ⟨[], [], [CbArg.err "No script given to run"], none⟩
  ∧ start [] (some { name := some "fail1", cwd := some "./tester" })
        (ReadResult.ok JsonDoc.invalid) = ⟨[], [], [], some JsError.syntaxError⟩ :=
  c2_read_fail_swallowed_parse_throws []
    { name := some "fail1", cwd := some "./tester" } (by decide) (by decide)

/-- C3: on every append failure the error-reporting branch of the
`fs.appendFile` callback evaluates the identifier `m`, which is bound in no
enclosing scope, so the callback throws a ReferenceError instead of reporting
the fault on the supervisor's error channel; with no error the callback is a
no-op. -/
theorem c3_append_error_reporting_throws (e : String) :
    appendFileCallback (some e) = Except.error (JsError.referenceError "m")
  ∧ appendFileCallback none = Except.ok []
  ∧ "m" ∉ outCallbackScope := by
  exact ⟨rfl, rfl, by decide⟩

/-- C4: `start`'s rebuild of `pi` drops the caller's `args` and `env`, so for
every caller parameter object the python spawn gets exactly `[script]` as its
argument vector and no `env` option, and the fork gets `[]` and no `env`;
concretely, a caller passing `args: ['x']` and `env: {A: '1'}` with script
`a.py` spawns `python` with argv `['a.py']` and no environment. -/
theorem c4_args_env_dropped (p : StartParams) (s : String) :
    launchPythonProcess (sanitize p) s
        = SpawnCall.spawn "python" [s]
            { windowsHide := false, detached := false,
              cwd := if truthyS p.cwd then p.cwd else none, env := none }
  ∧ launchJSProcess (sanitize p) s
        = SpawnCall.fork s []
            { silent := true, detached := false,
              cwd := if truthyS p.cwd then p.cwd else none, env := none }
  ∧ (start []
        (some { name := some "p", script := some "a.py",
                args := some ["x"], env := some [("A", "1")] })
        ReadResult.fail).spawns
      = [SpawnCall.spawn "python" ["a.py"]
          { windowsHide := false, detached := false, cwd := none, env := none }] := by
  exact ⟨rfl, rfl, by decide⟩

/-- C5: every configuration-error path of `start` — absent parameters,
neither truthy script nor truthy cwd, falsy resolved script, or a resolved
script without a recognized extension — invokes the callback with its
descriptive error, spawns nothing and leaves the registry unchanged. -/
theorem c5_config_errors (REG : List PiEntry) (p : StartParams) (fs : ReadResult) :
    start REG none fs
        = ⟨REG, [], [CbArg.err "Cannot start process without any information"], none⟩
  ∧ (truthyS p.script = false → truthyS p.cwd = false →
      start REG (some p) fs
        = ⟨REG, [], [CbArg.err "Cannot start process without 'script' or 'cwd'"], none⟩)
  ∧ (∀ scr, (truthyS p.script || truthyS p.cwd) = true →
      get_script_1 p.script fs = Except.ok scr → truthyS scr = false →
      start REG (some p) fs
        = ⟨REG, [], [CbArg.err "No script given to run"], none⟩)
  ∧ (∀ s, (truthyS p.script || truthyS p.cwd) = true →
      get_script_1 p.script fs = Except.ok (some s) → s ≠ "" →
      getScriptHandler s = none →
      start REG (some p) fs
        = ⟨REG, [], [CbArg.err ("Don't know how to start " ++ s)], none⟩) := by
  refine ⟨rfl, ?_, ?_, ?_⟩
  · intro h1 h2
    simp [start, h1, h2]
  · intro scr hor hg ht
    have hcond : (!truthyS p.script && !truthyS p.cwd) = false := by
      cases h1 : truthyS p.script <;> cases h2 : truthyS p.cwd <;> simp_all
    simp [start, hcond, startResolve, sanitize, hg, ht]
  · intro s hor hg hs hh
    have hcond : (!truthyS p.script && !truthyS p.cwd) = false := by
      cases h1 : truthyS p.script <;> cases h2 : truthyS p.cwd <;> simp_all
    have hts : truthyS (some s) = true := by simp [truthyS, hs]
    simp [start, hcond, startResolve, startWithScript, sanitize, hg, hts, hh]

/-- C6: feeding the chunks "ab", "c\ndef\r\n", "ghi" to one stream's
accumulator emits exactly the lines "abc" then "def" and leaves "ghi"
pending; "ghi" is emitted (only) by the subsequent flush.  In general each
chunk is appended to the pending accumulator, the result is split on runs of
newline/carriage-return characters, every segment but the last is emitted,
and the last segment is the new pending fragment. -/
theorem c6_line_assembler :
    ((onData "" "ab").1 ++ (onData (onData "" "ab").2 "c\ndef\r\n").1
        ++ (onData (onData (onData "" "ab").2 "c\ndef\r\n").2 "ghi").1
        = ["abc", "def"])
  ∧ (onData (onData (onData "" "ab").2 "c\ndef\r\n").2 "ghi").2 = "ghi"
  ∧ (flush ⟨"ghi", ""⟩).1 = [("ghi", false)]
  ∧ ∀ pending chunk : String, onData pending chunk
      = ((splitRuns (pending ++ chunk)).dropLast,
         (splitRuns (pending ++ chunk)).getLastD "") := by
  refine ⟨by decide, by decide, by decide, ?_⟩
  intro pending chunk
  exact show_lines_1_spec (pending ++ chunk)

/-- C7: `flush` clears both accumulators, so a second `flush` with no new
data emits nothing and returns the same cleared state (and a flush of empty
accumulators is a no-op); across the two calls each emittable pending
fragment (truthy, with truthy trim) is emitted exactly once. -/
theorem c7_flush_idempotent (st : CapState) :
    (flush st).2 = ⟨"", ""⟩
  ∧ flush (flush st).2 = ([], ⟨"", ""⟩)
  ∧ (st.op = "" → st.er = "" → (flush st).1 = [])
  ∧ (st.op ≠ "" → jsTrim st.op ≠ "" →
      ((flush st).1 ++ (flush (flush st).2).1).count (jsTrim st.op, false) = 1)
  ∧ (st.er ≠ "" → jsTrim st.er ≠ "" →
      ((flush st).1 ++ (flush (flush st).2).1).count (jsTrim st.er, true) = 1) := by
  refine ⟨rfl, rfl, ?_, ?_, ?_⟩
  · intro h1 h2
    simp [flush, h1, h2]
  · intro h1 h2
    by_cases h3 : st.er = ""
    · simp [flush, h1, h2, h3, List.count_append, List.count_cons]
    · by_cases h4 : jsTrim st.er = ""
      · simp [flush, h1, h2, h3, h4, List.count_append, List.count_cons]
      · simp [flush, h1, h2, h3, h4, List.count_append, List.count_cons,
          List.count_nil, Prod.ext_iff]
  · intro h1 h2
    by_cases h3 : st.op = ""
    · simp [flush, h1, h2, h3, List.count_append, List.count_cons]
    · by_cases h4 : jsTrim st.op = ""
      · simp [flush, h1, h2, h3, h4, List.count_append, List.count_cons]
      · simp [flush, h1, h2, h3, h4, List.count_append, List.count_cons,
          List.count_nil, Prod.ext_iff]

/-- C8: a call to `start` that does not reach the success callback leaves the
registry exactly as it was (no entry for that call is present), a call that
does reach it appends exactly one entry, and an entry present in the registry
is still present after any sequence of public operations (no operation
removes entries, so it persists at least until a stop action could remove
it). -/
theorem c8_failed_launch_outside_registry (REG : List PiEntry)
    (q : Option StartParams) (fs : ReadResult) (ops : List Op) :
    ((start REG q fs).cbs ≠ [CbArg.success] → (start REG q fs).reg = REG)
  ∧ ((start REG q fs).cbs = [CbArg.success] →
      ∃ e, (start REG q fs).reg = REG ++ [e])
  ∧ (∀ e, e ∈ REG → e ∈ applyOps REG ops) := by
  refine ⟨?_, ?_, fun e he => (applyOps_mono ops REG).2 e he⟩
  · intro hne
    rcases start_shape REG q fs with ⟨h1, -, -⟩ | ⟨a, c, -, h2, -⟩
    · exact h1
    · exact absurd h2 hne
  · intro hsucc
    rcases start_shape REG q fs with ⟨-, h2, -⟩ | ⟨a, c, h1, -, -⟩
    · exact absurd hsucc h2
    · exact ⟨a, h1⟩

/-- C9: `stopByName` applies the (empty-bodied) stop action to exactly the
entries whose name strictly equals the argument, once each, in registry
insertion order, and to no other entry: its application trace is the filter
of the registry, a sublist of the registry preserving multiplicities of the
matching entries. -/
theorem c9_stopByName_broadcast (REG : List PiEntry) (n : String) :
    stopByName REG n = REG.filter (fun pi => pi.name == some n)
  ∧ List.Sublist (stopByName REG n) REG
  ∧ (∀ e, e ∈ stopByName REG n → e.name = some n)
  ∧ (∀ e, e.name = some n → (stopByName REG n).count e = REG.count e)
  ∧ (∀ e, e.name ≠ some n → e ∉ stopByName REG n) := by
  have hfil : stopByName REG n = REG.filter (fun pi => pi.name == some n) := by
    have h := foldl_collect_filter (fun pi => pi.name == some n) REG []
    simpa [stopByName] using h
  refine ⟨hfil, ?_, ?_, ?_, ?_⟩
  · rw [hfil]; exact List.filter_sublist REG
  · intro e he
    rw [hfil] at he
    simpa using (List.mem_filter.mp he).2
  · intro e he
    rw [hfil]
    exact List.count_filter (by simpa using he)
  · intro e he hmem
    rw [hfil] at hmem
    exact he (by simpa using (List.mem_filter.mp hmem).2)

/-- C10: `stop`, `restart` and `stopall` (and the shutdown-hook setter) leave
the registry contents unchanged, a successful `start` appends exactly one
entry while an unsuccessful one appends nothing, and consequently the
registry's length is non-decreasing across every sequence of public
operations. -/
theorem c10_registry_monotone (REG : List PiEntry) (n : String)
    (q : Option StartParams) (fs : ReadResult) (ops : List Op) :
    applyOp REG (Op.opStop n) = REG
  ∧ applyOp REG (Op.opRestart n) = REG
  ∧ applyOp REG Op.opStopall = REG
  ∧ applyOp REG Op.opOnstopping = REG
  ∧ ((start REG q fs).reg = REG ∨ ∃ e, (start REG q fs).reg = REG ++ [e])
  ∧ REG.length ≤ (applyOps REG ops).length := by
  refine ⟨rfl, rfl, rfl, rfl, ?_, (applyOps_mono ops REG).1⟩
  rcases start_shape REG q fs with ⟨h1, -, -⟩ | ⟨a, c, h1, -, -⟩
  · exact Or.inl h1
  · exact Or.inr ⟨a, h1⟩

end PM2
